import Mathlib

/-!
Shallow embedding of `ffprobes3/ffprobes3.py` (class `FFProbes3` and class
`FFStream`), together with proofs about the claims of the specification.

Modelling conventions:
* Python exceptions are modelled by the error type `PyErr`; fallible code
  returns `Except PyErr a`.  `dict[key]` raises `KeyError` on an absent key,
  float division by zero raises `ZeroDivisionError`, `int(...)`/`float(...)`
  on a bad string raise `ValueError`, and `FFProbeError(msg)` is the
  library error type.  `try ... except ValueError: raise FFProbeError(msg)`
  is modelled by `catchValueError`.
* CPython floats are modelled exactly: a float value is either a rational
  number or one of the special values `inf`, `-inf`, `nan` (`PyFloat`).
  Decimal-to-float conversion and `round(x, 2)` are modelled on the exact
  rational value (binary double rounding is not modelled).
* Python strings are Lean `String`s; `str.strip` and the digit scanners
  work on ASCII in the usual way.
* The regular expressions of the source are embedded as deterministic
  scanners (`rateMatch` for the pattern digits-maybe-slash-digits used by
  the frame-rate getters, `tsMatch` for the anchored HH:MM:SS.fraction
  pattern used by `frames`); on the pattern languages involved the greedy
  scan and the backtracking engine agree.
-/

set_option autoImplicit false

namespace FFProbes3

/-- The Python exceptions that the source can raise. -/
inductive PyErr where
  | valueError
  | keyError (key : String)
  | zeroDivisionError
  | ffprobeError (msg : String)
deriving DecidableEq, Repr

/-- A CPython float value: an exact rational, or one of the specials. -/
inductive PyFloat where
  | finite (q : ℚ)
  | inf
  | ninf
  | nan
deriving DecidableEq, Repr

/-- A Python number as returned by `FFStream.frames`: `int` or `float`. -/
inductive PyNum where
  | int (n : ℤ)
  | float (f : PyFloat)
deriving DecidableEq, Repr

/-- Model of `try: x except ValueError: raise FFProbeError(msg)`. -/
def catchValueError {α : Type} (x : Except PyErr α) (msg : String) : Except PyErr α :=
  match x with
  | .error .valueError => .error (.ffprobeError msg)
  | y => y

/-- Round half to even, on the exact rational value. -/
def rhe (q : ℚ) : ℤ :=
  let f : ℤ := Int.fdiv q.num (q.den : ℤ)
  let r : ℚ := q - (f : ℚ)
  if r < (1 : ℚ) / 2 then f
  else if (1 : ℚ) / 2 < r then f + 1
  else if f % 2 = 0 then f else f + 1

/-- Model of Python `round(x, 2)`: round the value to two decimal places,
half to even; the specials round to themselves. -/
def round2 : PyFloat → PyFloat
  | .finite q => .finite ((rhe (q * 100) : ℚ) / 100)
  | f => f

/-- Model of CPython float division `a / b`: any division by the float
`0.0` raises `ZeroDivisionError`; otherwise IEEE rules for the specials.  -/
def floatDiv (a b : PyFloat) : Except PyErr PyFloat :=
  match b with
  | .finite qb =>
      if qb = 0 then .error .zeroDivisionError
      else
        match a with
        | .finite qa => .ok (.finite (qa / qb))
        | .inf => .ok (if 0 < qb then .inf else .ninf)
        | .ninf => .ok (if 0 < qb then .ninf else .inf)
        | .nan => .ok .nan
  | .inf =>
      match a with
      | .finite _ => .ok (.finite 0)
      | _ => .ok .nan
  | .ninf =>
      match a with
      | .finite _ => .ok (.finite 0)
      | _ => .ok .nan
  | .nan => .ok .nan

/-- Model of CPython `n * f` for an int `n` and a float `f`. -/
def intMulFloat (n : ℤ) : PyFloat → PyFloat
  | .finite q => .finite ((n : ℚ) * q)
  | .inf => if 0 < n then .inf else if n < 0 then .ninf else .nan
  | .ninf => if 0 < n then .ninf else if n < 0 then .inf else .nan
  | .nan => .nan

/-- Division of a Python number by a float, as in `framenumbers / fps`. -/
def numDivFloat : PyNum → PyFloat → Except PyErr PyFloat
  | .int n, f => floatDiv (.finite (n : ℚ)) f
  | .float g, f => floatDiv g f

/-- The whitespace characters stripped by Python `str.strip()`. -/
def pySpace (c : Char) : Bool :=
  c = ' ' || c = '\t' || c = '\n' || c = '\r' || c = '\x0b' || c = '\x0c'

/-- Model of Python `str.strip()` on a character list. -/
def pyStripChars (l : List Char) : List Char :=
  ((l.dropWhile pySpace).reverse.dropWhile pySpace).reverse

/-- Numeric value of an ASCII digit character. -/
def digitVal (c : Char) : ℕ := c.toNat - '0'.toNat

/-- Scan a run of ASCII digits in which single underscores may sit
between digits (Python numeric-literal strings); returns the value, the
number of digits consumed, and the rest of the input. -/
def digitsUndAux : List Char → ℕ → ℕ → ℕ × ℕ × List Char
  | [], acc, k => (acc, k, [])
  | c :: rest, acc, k =>
    if c.isDigit then digitsUndAux rest (10 * acc + digitVal c) (k + 1)
    else if c = '_' then
      match rest with
      | d :: rest2 =>
        if d.isDigit then digitsUndAux rest2 (10 * acc + digitVal d) (k + 1)
        else (acc, k, c :: rest)
      | [] => (acc, k, c :: rest)
    else (acc, k, c :: rest)

/-- A digit run (with embedded underscores) must begin with a digit. -/
def digitsUnd (l : List Char) : Option (ℕ × ℕ × List Char) :=
  match l with
  | c :: _ => if c.isDigit then some (digitsUndAux l 0 0) else none
  | [] => none

/-- Model of Python `int(s)` (base 10). -/
def pyIntOfString (s : String) : Option ℤ :=
  let l := pyStripChars s.toList
  let sl : ℤ × List Char :=
    match l with
    | '+' :: r => (1, r)
    | '-' :: r => (-1, r)
    | _ => (1, l)
  match digitsUnd sl.2 with
  | some (v, _, []) => some (sl.1 * (v : ℤ))
  | _ => none

/-- Exponent part of a float literal, after the `e`/`E` marker. -/
def expSigned (l : List Char) : Option (ℤ × List Char) :=
  let sl : ℤ × List Char :=
    match l with
    | '+' :: t => (1, t)
    | '-' :: t => (-1, t)
    | _ => (1, l)
  match digitsUnd sl.2 with
  | some (v, _, t) => some (sl.1 * (v : ℤ), t)
  | none => none

/-- Optional exponent of a float literal. -/
def expAfter : List Char → Option (ℤ × List Char)
  | 'e' :: r => expSigned r
  | 'E' :: r => expSigned r
  | l => some (0, l)

/-- The finite-decimal grammar of Python `float(s)`:
`[digits] [. [digits]] [(e|E) [sign] digits]`, at least one mantissa
digit, nothing left over. -/
def parseDecimal (l : List Char) : Option ℚ :=
  let ipart : ℕ × Bool × List Char :=
    match digitsUnd l with
    | some (v, _, r) => (v, true, r)
    | none => (0, false, l)
  let r1 := ipart.2.2
  let fpart : ℕ × ℕ × List Char :=
    match r1 with
    | '.' :: r =>
      match digitsUnd r with
      | some (v, k, t) => (v, k, t)
      | none => (0, 0, r)
    | _ => (0, 0, r1)
  let hasDot : Bool := match r1 with | '.' :: _ => true | _ => false
  if ipart.2.1 || (hasDot && fpart.2.1 != 0) then
    match expAfter fpart.2.2 with
    | some (ex, []) =>
        some (((ipart.1 : ℚ) + (fpart.1 : ℚ) / (10 : ℚ) ^ fpart.2.1) * (10 : ℚ) ^ ex)
    | _ => none
  else none

/-- Model of Python `float(s)`: strip, optional sign, then either the
special words `inf`, `infinity`, `nan` (case-insensitive) or a finite
decimal literal. -/
def pyFloatOfString (s : String) : Option PyFloat :=
  let l := pyStripChars s.toList
  let sl : Bool × List Char :=
    match l with
    | '+' :: r => (false, r)
    | '-' :: r => (true, r)
    | _ => (false, l)
  let low := sl.2.map Char.toLower
  if low = "inf".toList || low = "infinity".toList then
    some (if sl.1 then .ninf else .inf)
  else if low = "nan".toList then some .nan
  else
    match parseDecimal sl.2 with
    | some q => some (.finite (if sl.1 then -q else q))
    | none => none

/-! ### Field stores (`FFStream.__dict__`) -/

/-- A field store: the `__dict__` of one `FFStream`.  It is kept as an
association list in which the most recent binding of a key stands first,
so that lookup sees the last value written, exactly as in a Python dict. -/
abbrev Store := List (String × String)

/-- Model of `self.__dict__[key]`: `KeyError` when the key is absent. -/
def dictGet (st : Store) (k : String) : Except PyErr String :=
  match st.find? (fun p => p.1 == k) with
  | some p => .ok p.2
  | none => .error (.keyError k)

/-- Model of `self.__dict__[key] = val` (last write wins on lookup). -/
def dictInsert (st : Store) (k v : String) : Store := (k, v) :: st

/-- Model of Python `str.split` on the separator character, as in
`a.strip().split(sep)`: splitting on every occurrence. -/
def splitEq : List Char → List (List Char)
  | [] => [[]]
  | c :: r =>
    if c = '=' then [] :: splitEq r
    else
      match splitEq r with
      | h :: t => (c :: h) :: t
      | [] => [[c]]

/-- One line of `FFStream.__init__`:
`(key, val) = a.strip().split('=')` raises `ValueError` unless the
stripped line splits into exactly two pieces. -/
def parseKV (a : String) : Except PyErr (String × String) :=
  match splitEq (pyStripChars a.toList) with
  | [k, v] => .ok (String.mk k, String.mk v)
  | _ => .error .valueError

/-- The loop of `FFStream.__init__` over the data lines of one block. -/
def mkStoreAux : Store → List String → Except PyErr Store
  | st, [] => .ok st
  | st, a :: dl =>
    match parseKV a with
    | .ok kv => mkStoreAux (dictInsert st kv.1 kv.2) dl
    | .error e => .error e

/-- Model of `FFStream(data_lines)`: build the field store of a block. -/
def mkStore (dl : List String) : Except PyErr Store := mkStoreAux [] dl

/-- The last value that the lines `dl` write for the key `k` (later lines
take precedence); used to specify lookup after construction. -/
def lastKV : List String → String → Option String
  | [], _ => none
  | a :: dl, k =>
    match lastKV dl k with
    | some v => some v
    | none =>
      match parseKV a with
      | .ok kv => if kv.1 = k then some kv.2 else none
      | .error _ => none

/-! ### The block segmenter (`FFProbes3.__init__` line loop) -/

/-- List-of-characters prefix test (the anchored match of `re.match`
with a literal pattern). -/
def isPre : List Char → List Char → Bool
  | [], _ => true
  | _ :: _, [] => false
  | c :: p, d :: l => c = d && isPre p l

/-- `re.match` against the pattern bracket-STREAM-bracket: the line
starts with the start-of-block marker. -/
def lineIsStart (s : String) : Bool := isPre "[STREAM]".toList s.toList

/-- The line starts with the end-of-block marker. -/
def lineIsEnd (s : String) : Bool := isPre "[/STREAM]".toList s.toList

/-- A line that is neither a start nor an end marker. -/
def plainLine (s : String) : Bool := !lineIsStart s && !lineIsEnd s

/-- The line loop of `FFProbes3.__init__` with its `data_lines`
accumulator; the stdout loop and the stderr loop are the same loop run
over the concatenation of the two channels (the accumulator and the
output list persist from one channel into the next). -/
def segLoop : List String → List String → List (List String)
  | [], _ => []
  | a :: rest, acc =>
    if lineIsStart a then segLoop rest []
    else if lineIsEnd a then acc :: segLoop rest []
    else segLoop rest (acc ++ [a])

/-- The data-line blocks produced by the segmenter, in order. -/
def segmentLines (lines : List String) : List (List String) :=
  segLoop lines []

/-- Build one field store per segmented block, stopping at the first
construction error, exactly as the appends in the line loop do. -/
def mapStores : List (List String) → Except PyErr (List Store)
  | [] => .ok []
  | b :: r => do
    let s ← mkStore b
    let rest ← mapStores r
    .ok (s :: rest)

/-- The stream-building part of `FFProbes3.__init__`: segment the
concatenated output lines and wrap each complete block as a field store. -/
def ffprobeInit (lines : List String) : Except PyErr (List Store) :=
  mapStores (segmentLines lines)

/-! ### The stream classifier -/

/-- Model of `FFStream.is_audio`: `KeyError` when `codec_type` is
absent; otherwise the truthiness test followed by the equality test. -/
def is_audio (st : Store) : Except PyErr Bool := do
  let ct ← dictGet st "codec_type"
  pure (ct != "" && ct == "audio")

/-- Model of `FFStream.is_video`. -/
def is_video (st : Store) : Except PyErr Bool := do
  let ct ← dictGet st "codec_type"
  pure (ct != "" && ct == "video")

/-- Model of `FFStream.is_subtitle`. -/
def is_subtitle (st : Store) : Except PyErr Bool := do
  let ct ← dictGet st "codec_type"
  pure (ct != "" && ct == "subtitle")

/-- Model of `FFStream.frame_size`: `None` (here `Option.none`) for a
non-video stream or when `width`/`height` is present but empty;
`KeyError` when the stream is video and `width` or `height` is absent;
`FFProbeError` when a present, non-empty value does not parse as an int. -/
def frame_size (st : Store) : Except PyErr (Option (ℤ × ℤ)) := do
  let iv ← is_video st
  if iv then do
    let w ← dictGet st "width"
    let h ← dictGet st "height"
    if w != "" && h != "" then
      match pyIntOfString w, pyIntOfString h with
      | some wi, some hi => pure (some (wi, hi))
      | _, _ => .error (.ffprobeError ("None integer size " ++ w ++ ":" ++ h))
    else pure none
  else pure none

/-! ### The rational rate parser -/

/-- Scan a maximal ASCII digit run, returning its numeric value. -/
def digitRunAux : List Char → ℕ → ℕ × List Char
  | [], acc => (acc, [])
  | c :: r, acc =>
    if c.isDigit then digitRunAux r (10 * acc + digitVal c) else (acc, c :: r)

/-- Embedding of `re.search` with the pattern
digits, optionally followed by slash and digits: the first digit run of
the string is the numerator; a following slash-digit-run, when present,
is the denominator.  `none` exactly when the string has no ASCII digit. -/
def rateMatch : List Char → Option (ℕ × Option ℕ)
  | [] => none
  | c :: r =>
    if c.isDigit then
      let nr := digitRunAux (c :: r) 0
      match nr.2 with
      | '/' :: d :: r2 =>
        if d.isDigit then some (nr.1, some (digitRunAux (d :: r2) 0).1)
        else some (nr.1, none)
      | _ => some (nr.1, none)
    else rateMatch r

/-- The shared regex-then-fallback part of the two frame-rate getters,
on a non-empty raw field value: divide-and-round when numerator and
denominator are found, the plain numerator as a float when only a digit
run is found, the whole-string float fallback when the value has no
digit at all (`ValueError` when that fails too). -/
def rateOfRaw (raw : String) : Except PyErr PyFloat :=
  match rateMatch raw.toList with
  | some (num, some den) => do
    let b ← floatDiv (.finite (num : ℚ)) (.finite (den : ℚ))
    pure (round2 b)
  | some (num, none) => pure (.finite (num : ℚ))
  | none =>
    match pyFloatOfString raw with
    | some f => pure f
    | none => .error .valueError

/-- Model of `FFStream.get_r_frame_rate`.  The initial `b = float(0)` is
returned when the field is present but empty (the truthiness test
fails); an absent field raises `KeyError`; a zero denominator raises
`ZeroDivisionError`; the whole-string float fallback runs only when the
raw value has no digit at all, and its `ValueError` becomes
`FFProbeError`. -/
def get_r_frame_rate (st : Store) : Except PyErr PyFloat :=
  catchValueError
    (do
      let raw ← dictGet st "r_frame_rate"
      if raw != "" then rateOfRaw raw
      else pure (.finite 0))
    "Nothing useful in r_frame_rate"

/-- Model of `FFStream.get_avg_frame_rate`: as `get_r_frame_rate` on the
field `avg_frame_rate`, except that an empty field raises `ValueError`
(hence `FFProbeError`) instead of returning `0.0`. -/
def get_avg_frame_rate (st : Store) : Except PyErr PyFloat :=
  catchValueError
    (do
      let raw ← dictGet st "avg_frame_rate"
      if raw != "" then rateOfRaw raw
      else .error .valueError)
    "Nothing useful in r_frame_rate"

/-! ### The duration / frame-count resolver -/

/-- Two ASCII digits, as matched by one two-digit group of the timestamp
pattern (the literal-00 alternative and the capturing alternative
consume the same characters and contribute the same count). -/
def twoDigits : List Char → Option (ℕ × List Char)
  | a :: b :: r =>
    if a.isDigit && b.isDigit then some (10 * digitVal a + digitVal b, r) else none
  | _ => none

/-- An optional colon, as matched by the greedy optional colon of the
timestamp pattern. -/
def optColon : List Char → List Char
  | ':' :: r => r
  | l => l

/-- Embedding of `re.search` with the anchored pattern
HH, optional colon, MM, optional colon, SS, dot, at least one digit,
as used on `TAG:DURATION`; yields the three two-digit values. -/
def tsMatchL (l : List Char) : Option (ℕ × ℕ × ℕ) := do
  let (h, r1) ← twoDigits l
  let (m, r2) ← twoDigits (optColon r1)
  let (s, r3) ← twoDigits (optColon r2)
  match r3 with
  | '.' :: d :: _ => if d.isDigit then some (h, m, s) else none
  | _ => none

/-- The timestamp pattern on a string. -/
def tsMatch (s : String) : Option (ℕ × ℕ × ℕ) := tsMatchL s.toList

/-- Model of `FFStream.frames`.  The guard is the short-circuit
`self.is_video() or self.is_audio()`; inside the `try`, a reported
`nb_frames` different from the N/A sentinel is parsed as an int, else a
present non-empty `TAG:DURATION` is matched against the timestamp
pattern; on a match the whole seconds are multiplied by the fixed frame
rate (the sub-second digits are ignored), on no match the initial count
`0` is returned; an empty `TAG:DURATION` raises `ValueError`, which
the handler turns into `FFProbeError`.  This is the body of the `try`. -/
def framesTry (st : Store) : Except PyErr PyNum := do
  let nb ← dictGet st "nb_frames"
  if nb != "N/A" then
    match pyIntOfString nb with
    | some n => pure (.int n)
    | none => .error .valueError
  else do
    let td ← dictGet st "TAG:DURATION"
    if td != "" then
      match tsMatch td with
      | some hms => do
        let fps ← get_r_frame_rate st
        pure (.float (intMulFloat
          ((hms.1 : ℤ) * 3600 + (hms.2.1 : ℤ) * 60 + (hms.2.2 : ℤ)) fps))
      | none => pure (.int 0)
    else .error .valueError

/-- Model of `FFStream.frames`: the short-circuit guard
`self.is_video() or self.is_audio()`, then the `try` body with
`ValueError` converted to `FFProbeError`; the initial `0` for any other
stream. -/
def frames (st : Store) : Except PyErr PyNum := do
  let iv ← is_video st
  let cond ← if iv then pure true else is_audio st
  if cond then catchValueError (framesTry st) "None integer frame count"
  else pure (.int 0)

/-- The `try` body of `FFStream.duration_seconds`: a present `duration`
field different from the N/A sentinel is parsed as a float; on the
sentinel, the average frame rate and the frame count are computed, in
that order, and divided. -/
def durationTry (st : Store) : Except PyErr PyFloat := do
  let dur ← dictGet st "duration"
  if dur != "N/A" then
    match pyFloatOfString dur with
    | some f => pure f
    | none => .error .valueError
  else do
    let fps ← get_avg_frame_rate st
    let fn ← frames st
    numDivFloat fn fps

/-- Model of `FFStream.duration_seconds`: the short-circuit guard, then
the `try` body with `ValueError` converted to `FFProbeError`; the
initial `0.0` for any other stream. -/
def duration_seconds (st : Store) : Except PyErr PyFloat := do
  let iv ← is_video st
  let cond ← if iv then pure true else is_audio st
  if cond then catchValueError (durationTry st) "None numeric duration"
  else pure (.finite 0)

/-! ### The report container -/

/-- The audio/video partition loop at the end of `FFProbes3.__init__`:
for each stream, `is_audio` then `is_video` are called and the stream is
appended to the matching view lists. -/
def partitionAV : List Store → Except PyErr (List Store × List Store)
  | [] => .ok ([], [])
  | s :: rest => do
    let ia ← is_audio s
    let iv ← is_video s
    let av ← partitionAV rest
    .ok ((if ia then s :: av.1 else av.1), (if iv then s :: av.2 else av.2))

/-- The report: the master stream sequence and the two views, all fixed
at construction (the embedding is a plain immutable value). -/
structure Report where
  streams : List Store
  video : List Store
  audio : List Store
deriving Repr, DecidableEq

/-- The whole parsing part of `FFProbes3.__init__`: segment the
captured lines, build the stores, then partition once by the classifier. -/
def buildReport (lines : List String) : Except PyErr Report := do
  let sts ← ffprobeInit lines
  let av ← partitionAV sts
  .ok ⟨sts, av.2, av.1⟩

/-! ### A grammar of well-formed input line sequences -/

/-- `Seg lines bs` relates an input line sequence to the list of
complete delimited blocks it contains (each block given by its data
lines): plain junk lines outside blocks are skipped, a start marker
opens a block, a block closed by an end marker is collected, a block
re-opened by another start marker or left open at the end of the input
is discarded. -/
inductive Seg : List String → List (List String) → Prop where
  | nil : Seg [] []
  | trailing (hd : String) (dl : List String) :
      lineIsStart hd = true → (∀ l ∈ dl, plainLine l = true) →
      Seg (hd :: dl) []
  | junk (s : String) (rest : List String) (bs : List (List String)) :
      plainLine s = true → Seg rest bs → Seg (s :: rest) bs
  | drop (hd : String) (dl : List String) (nxt : String) (rest : List String)
      (bs : List (List String)) :
      lineIsStart hd = true → (∀ l ∈ dl, plainLine l = true) →
      lineIsStart nxt = true → Seg (nxt :: rest) bs →
      Seg (hd :: (dl ++ nxt :: rest)) bs
  | block (hd : String) (dl : List String) (fin : String) (rest : List String)
      (bs : List (List String)) :
      lineIsStart hd = true → (∀ l ∈ dl, plainLine l = true) →
      lineIsEnd fin = true → Seg rest bs →
      Seg (hd :: (dl ++ fin :: rest)) (dl :: bs)

/-- Whether a fallible computation succeeded. -/
def isOkB {α : Type} : Except PyErr α → Bool
  | .ok _ => true
  | .error _ => false

/-- A concrete captured line sequence used to instantiate the segmenter
and report theorems: a junk line, two complete blocks, and an
unterminated trailing block. -/
def demoLines : List String :=
  ["junk\n", "[STREAM]\n", "codec_type=video\n", "[/STREAM]\n",
   "[STREAM]\n", "codec_type=audio\n", "[/STREAM]\n", "[STREAM]\n", "left=open\n"]

/-- The two complete blocks of `demoLines`. -/
def demoBlocks : List (List String) :=
  [["codec_type=video\n"], ["codec_type=audio\n"]]

end FFProbes3

deriving instance DecidableEq for Except

attribute [local semireducible] Rat.mul Rat.inv Rat.add Rat.sub

namespace FFProbes3

/-! ### Reduction helpers for the `Except` monad -/

theorem ok_bind {α β : Type} (a : α) (f : α → Except PyErr β) :
    (Except.ok a >>= f : Except PyErr β) = f a := rfl

theorem error_bind {α β : Type} (e : PyErr) (f : α → Except PyErr β) :
    ((Except.error e : Except PyErr α) >>= f) = .error e := rfl

theorem pure_eq_ok {α : Type} (a : α) : (pure a : Except PyErr α) = .ok a := rfl

theorem catch_ok {α : Type} (a : α) (msg : String) :
    catchValueError (.ok a) msg = .ok a := rfl

theorem catch_keyError {α : Type} (k : String) (msg : String) :
    catchValueError (α := α) (.error (.keyError k)) msg = .error (.keyError k) := rfl

theorem catch_valueError {α : Type} (msg : String) :
    catchValueError (α := α) (.error .valueError) msg = .error (.ffprobeError msg) := rfl

theorem catch_zeroDiv {α : Type} (msg : String) :
    catchValueError (α := α) (.error .zeroDivisionError) msg = .error .zeroDivisionError := rfl

theorem catch_ffprobe {α : Type} (m m2 : String) :
    catchValueError (α := α) (.error (.ffprobeError m)) m2 = .error (.ffprobeError m) := rfl

/-! ### Behaviour of the rate getters given the raw field value -/

theorem get_r_of_raw (st : Store) (raw : String)
    (h : dictGet st "r_frame_rate" = .ok raw) (hne : raw ≠ "") :
    get_r_frame_rate st
      = catchValueError (rateOfRaw raw) "Nothing useful in r_frame_rate" := by
  unfold get_r_frame_rate
  rw [h, ok_bind]
  simp [hne]

theorem get_r_of_empty (st : Store) (h : dictGet st "r_frame_rate" = .ok "") :
    get_r_frame_rate st = .ok (.finite 0) := by
  unfold get_r_frame_rate
  rw [h, ok_bind]
  decide

theorem get_r_of_absent (st : Store)
    (h : dictGet st "r_frame_rate" = .error (.keyError "r_frame_rate")) :
    get_r_frame_rate st = .error (.keyError "r_frame_rate") := by
  unfold get_r_frame_rate
  rw [h, error_bind, catch_keyError]

theorem get_avg_of_raw (st : Store) (raw : String)
    (h : dictGet st "avg_frame_rate" = .ok raw) (hne : raw ≠ "") :
    get_avg_frame_rate st
      = catchValueError (rateOfRaw raw) "Nothing useful in r_frame_rate" := by
  unfold get_avg_frame_rate
  rw [h, ok_bind]
  simp [hne]

theorem get_avg_of_empty (st : Store) (h : dictGet st "avg_frame_rate" = .ok "") :
    get_avg_frame_rate st = .error (.ffprobeError "Nothing useful in r_frame_rate") := by
  unfold get_avg_frame_rate
  rw [h, ok_bind]
  decide

theorem get_avg_of_absent (st : Store)
    (h : dictGet st "avg_frame_rate" = .error (.keyError "avg_frame_rate")) :
    get_avg_frame_rate st = .error (.keyError "avg_frame_rate") := by
  unfold get_avg_frame_rate
  rw [h, error_bind, catch_keyError]

theorem rateOfRaw_nodigit (raw : String) (h1 : rateMatch raw.toList = none)
    (h2 : pyFloatOfString raw = none) : rateOfRaw raw = .error .valueError := by
  unfold rateOfRaw
  rw [h1, h2]

/-! ### Claim C1 -/

/-- Claim C1 as frozen is false on the code: the counterexamples.  An
empty `r_frame_rate` silently returns the default `0.0` instead of
failing; an absent field raises `KeyError`, not the typed
`FFProbeError`; a zero denominator raises `ZeroDivisionError`, not the
typed `FFProbeError`; and the raw value `inf`, having no digit, goes
through the whole-string float fallback and yields infinity. -/
theorem rate_parser_cex :
    get_r_frame_rate [("r_frame_rate", "")] = .ok (.finite 0) ∧
    get_r_frame_rate [] = .error (.keyError "r_frame_rate") ∧
    get_r_frame_rate [("r_frame_rate", "1/0")] = .error .zeroDivisionError ∧
    get_r_frame_rate [("r_frame_rate", "1/0")]
      ≠ .error (.ffprobeError "Nothing useful in r_frame_rate") ∧
    get_r_frame_rate [("r_frame_rate", "inf")] = .ok .inf := by
  refine ⟨by decide, by decide, by decide, by decide, by decide⟩

/-- Claim C1, amended.  For every stream field store: the rate getters
return 29.97 for raw value 30000/1001, 25.0 for 25/1 and 25.0 for 25
(with a denominator the quotient is rounded to 2 decimal places); a
present, non-empty, digit-free raw value that the whole-string float
fallback cannot parse fails with the typed `FFProbeError` (the
`InvalidFrameRate` of the spec), while one that parses as a special
float is returned (so `inf` yields infinity); an absent field raises
`KeyError`; a zero denominator raises `ZeroDivisionError`; an empty
`r_frame_rate` silently returns `0.0`, whereas an empty
`avg_frame_rate` fails with the typed `FFProbeError`. -/
theorem rate_parser_amended :
    (∀ st : Store, dictGet st "r_frame_rate" = .ok "30000/1001" →
      get_r_frame_rate st = .ok (.finite (2997 / 100))) ∧
    (∀ st : Store, dictGet st "r_frame_rate" = .ok "25/1" →
      get_r_frame_rate st = .ok (.finite 25)) ∧
    (∀ st : Store, dictGet st "r_frame_rate" = .ok "25" →
      get_r_frame_rate st = .ok (.finite 25)) ∧
    (∀ (st : Store) (raw : String), dictGet st "r_frame_rate" = .ok raw →
      raw ≠ "" → rateMatch raw.toList = none → pyFloatOfString raw = none →
      get_r_frame_rate st = .error (.ffprobeError "Nothing useful in r_frame_rate")) ∧
    (∀ st : Store, dictGet st "r_frame_rate" = .error (.keyError "r_frame_rate") →
      get_r_frame_rate st = .error (.keyError "r_frame_rate")) ∧
    (∀ st : Store, dictGet st "r_frame_rate" = .ok "1/0" →
      get_r_frame_rate st = .error .zeroDivisionError) ∧
    (∀ st : Store, dictGet st "r_frame_rate" = .ok "" →
      get_r_frame_rate st = .ok (.finite 0)) ∧
    (∀ st : Store, dictGet st "avg_frame_rate" = .ok "30000/1001" →
      get_avg_frame_rate st = .ok (.finite (2997 / 100))) ∧
    (∀ st : Store, dictGet st "avg_frame_rate" = .ok "25/1" →
      get_avg_frame_rate st = .ok (.finite 25)) ∧
    (∀ st : Store, dictGet st "avg_frame_rate" = .ok "25" →
      get_avg_frame_rate st = .ok (.finite 25)) ∧
    (∀ st : Store, dictGet st "avg_frame_rate" = .ok "" →
      get_avg_frame_rate st = .error (.ffprobeError "Nothing useful in r_frame_rate")) ∧
    (∀ st : Store, dictGet st "avg_frame_rate" = .error (.keyError "avg_frame_rate") →
      get_avg_frame_rate st = .error (.keyError "avg_frame_rate")) ∧
    (∀ st : Store, dictGet st "avg_frame_rate" = .ok "1/0" →
      get_avg_frame_rate st = .error .zeroDivisionError) := by
  refine ⟨?_, ?_, ?_, ?_, ?_, ?_, ?_, ?_, ?_, ?_, ?_, ?_, ?_⟩
  · intro st h; rw [get_r_of_raw st _ h (by decide)]; decide
  · intro st h; rw [get_r_of_raw st _ h (by decide)]; decide
  · intro st h; rw [get_r_of_raw st _ h (by decide)]; decide
  · intro st raw h hne h1 h2
    rw [get_r_of_raw st raw h hne, rateOfRaw_nodigit raw h1 h2, catch_valueError]
  · exact get_r_of_absent
  · intro st h; rw [get_r_of_raw st _ h (by decide)]; decide
  · exact get_r_of_empty
  · intro st h; rw [get_avg_of_raw st _ h (by decide)]; decide
  · intro st h; rw [get_avg_of_raw st _ h (by decide)]; decide
  · intro st h; rw [get_avg_of_raw st _ h (by decide)]; decide
  · exact get_avg_of_empty
  · exact get_avg_of_absent
  · intro st h; rw [get_avg_of_raw st _ h (by decide)]; decide

/-- Witness for the amended claim C1 at concrete stores. -/
theorem rate_parser_amended_w :
    get_r_frame_rate [("r_frame_rate", "30000/1001")] = .ok (.finite (2997 / 100)) ∧
    get_r_frame_rate [("r_frame_rate", "x")]
      = .error (.ffprobeError "Nothing useful in r_frame_rate") := by
  constructor
  · exact rate_parser_amended.1 [("r_frame_rate", "30000/1001")] (by decide)
  · exact rate_parser_amended.2.2.2.1 [("r_frame_rate", "x")] "x" (by decide) (by decide)
      (by decide) (by decide)

/-! ### Claim C4 -/

theorem truthyEq_eq_decide (v w : String) (hw : w ≠ "") :
    (v != "" && v == w) = decide (v = w) := by
  by_cases hv : v = w
  · subst hv
    simp [hw]
  · simp [hv]

theorem is_audio_of_ok (st : Store) (v : String) (h : dictGet st "codec_type" = .ok v) :
    is_audio st = .ok (decide (v = "audio")) := by
  unfold is_audio
  rw [h, ok_bind, pure_eq_ok, truthyEq_eq_decide v "audio" (by decide)]

theorem is_video_of_ok (st : Store) (v : String) (h : dictGet st "codec_type" = .ok v) :
    is_video st = .ok (decide (v = "video")) := by
  unfold is_video
  rw [h, ok_bind, pure_eq_ok, truthyEq_eq_decide v "video" (by decide)]

theorem is_subtitle_of_ok (st : Store) (v : String) (h : dictGet st "codec_type" = .ok v) :
    is_subtitle st = .ok (decide (v = "subtitle")) := by
  unfold is_subtitle
  rw [h, ok_bind, pure_eq_ok, truthyEq_eq_decide v "subtitle" (by decide)]

/-- Claim C4 as frozen is false on the code: a store with no
`codec_type` field makes every classifier raise `KeyError` instead of
yielding the Other outcome, so the classifier can raise. -/
theorem classifier_cex :
    is_audio [] = .error (.keyError "codec_type") ∧
    is_video [] = .error (.keyError "codec_type") ∧
    is_subtitle [] = .error (.keyError "codec_type") ∧
    is_audio [] ≠ .ok false := by
  refine ⟨by decide, by decide, by decide, by decide⟩

/-- Claim C4, amended.  When `codec_type` is present, classification is
derived solely from it by exact string match against audio, video and
subtitle, and exactly one of the four outcomes (the three matches, or
Other, meaning none of them) holds; when `codec_type` is absent, all
three classifiers raise `KeyError` instead of yielding Other. -/
theorem classifier_amended :
    (∀ (st : Store) (v : String), dictGet st "codec_type" = .ok v →
      is_audio st = .ok (decide (v = "audio")) ∧
      is_video st = .ok (decide (v = "video")) ∧
      is_subtitle st = .ok (decide (v = "subtitle")) ∧
      ((v = "audio" ∧ v ≠ "video" ∧ v ≠ "subtitle") ∨
       (v ≠ "audio" ∧ v = "video" ∧ v ≠ "subtitle") ∨
       (v ≠ "audio" ∧ v ≠ "video" ∧ v = "subtitle") ∨
       (v ≠ "audio" ∧ v ≠ "video" ∧ v ≠ "subtitle"))) ∧
    (∀ (st : Store) (e : PyErr), dictGet st "codec_type" = .error e →
      is_audio st = .error e ∧ is_video st = .error e ∧ is_subtitle st = .error e) := by
  constructor
  · intro st v h
    refine ⟨is_audio_of_ok st v h, is_video_of_ok st v h, is_subtitle_of_ok st v h, ?_⟩
    rcases eq_or_ne v "audio" with h1 | h1
    · subst h1; exact Or.inl ⟨rfl, by decide, by decide⟩
    rcases eq_or_ne v "video" with h2 | h2
    · subst h2; exact Or.inr (Or.inl ⟨by decide, rfl, by decide⟩)
    rcases eq_or_ne v "subtitle" with h3 | h3
    · subst h3; exact Or.inr (Or.inr (Or.inl ⟨by decide, by decide, rfl⟩))
    · exact Or.inr (Or.inr (Or.inr ⟨h1, h2, h3⟩))
  · intro st e h
    refine ⟨?_, ?_, ?_⟩ <;>
      simp only [is_audio, is_video, is_subtitle] <;> rw [h, error_bind]

/-- Witness for the amended claim C4 at a concrete store. -/
theorem classifier_amended_w :
    is_audio [("codec_type", "audio")] = .ok true ∧
    is_video [("codec_type", "audio")] = .ok false := by
  have h := classifier_amended.1 [("codec_type", "audio")] "audio" (by decide)
  exact ⟨h.1, h.2.1⟩

/-! ### Claim C8 -/

theorem frame_size_of_not_video (st : Store) (h : is_video st = .ok false) :
    frame_size st = .ok none := by
  unfold frame_size
  rw [h, ok_bind]
  rfl

theorem frame_size_of_video_err (st : Store) (e : PyErr) (h : is_video st = .error e) :
    frame_size st = .error e := by
  unfold frame_size
  rw [h, error_bind]

/-- Claim C8 as frozen is false on the code: on a video stream with the
`width` field missing, `frame_size` raises `KeyError` instead of
returning the absent value. -/
theorem frame_size_cex :
    frame_size [("codec_type", "video")] = .error (.keyError "width") ∧
    frame_size [("codec_type", "video")] ≠ .ok none := by
  refine ⟨by decide, by decide⟩

/-- Claim C8, amended.  A stream the classifier resolves to non-video
gets the absent frame size with no integer parsing; a video stream with
`width` or `height` absent raises `KeyError` (not absent); with both
present, an empty value yields absent, two parseable values yield the
integer pair, and a non-empty unparseable value fails with the typed
`FFProbeError` naming both raw values; a store with no `codec_type`
propagates the classifier `KeyError`. -/
theorem frame_size_amended :
    (∀ st : Store, is_video st = .ok false → frame_size st = .ok none) ∧
    (∀ (st : Store) (e : PyErr), is_video st = .error e → frame_size st = .error e) ∧
    (∀ st : Store, is_video st = .ok true →
      dictGet st "width" = .error (.keyError "width") →
      frame_size st = .error (.keyError "width")) ∧
    (∀ (st : Store) (w : String), is_video st = .ok true →
      dictGet st "width" = .ok w →
      dictGet st "height" = .error (.keyError "height") →
      frame_size st = .error (.keyError "height")) ∧
    (∀ (st : Store) (w h : String), is_video st = .ok true →
      dictGet st "width" = .ok w → dictGet st "height" = .ok h →
      (w = "" ∨ h = "") → frame_size st = .ok none) ∧
    (∀ (st : Store) (w h : String) (wi hi : ℤ), is_video st = .ok true →
      dictGet st "width" = .ok w → dictGet st "height" = .ok h →
      pyIntOfString w = some wi → pyIntOfString h = some hi →
      w ≠ "" → h ≠ "" → frame_size st = .ok (some (wi, hi))) ∧
    (∀ (st : Store) (w h : String), is_video st = .ok true →
      dictGet st "width" = .ok w → dictGet st "height" = .ok h →
      w ≠ "" → h ≠ "" →
      (pyIntOfString w = none ∨ pyIntOfString h = none) →
      frame_size st = .error (.ffprobeError ("None integer size " ++ w ++ ":" ++ h))) := by
  refine ⟨frame_size_of_not_video, frame_size_of_video_err, ?_, ?_, ?_, ?_, ?_⟩
  · intro st hv hw
    unfold frame_size
    rw [hv, ok_bind, if_pos rfl, hw, error_bind]
  · intro st w hv hw hh
    unfold frame_size
    rw [hv, ok_bind, if_pos rfl, hw, ok_bind, hh, error_bind]
  · intro st w h hv hw hh hor
    unfold frame_size
    rw [hv, ok_bind, if_pos rfl, hw, ok_bind, hh, ok_bind]
    rcases hor with h1 | h1 <;> subst h1 <;> simp [pure_eq_ok]
  · intro st w h wi hi hv hw hh hpw hph hwne hhne
    unfold frame_size
    rw [hv, ok_bind, if_pos rfl, hw, ok_bind, hh, ok_bind,
      if_pos (by simp [hwne, hhne]), hpw, hph]
    rfl
  · intro st w h hv hw hh hwne hhne hor
    unfold frame_size
    rw [hv, ok_bind, if_pos rfl, hw, ok_bind, hh, ok_bind,
      if_pos (by simp [hwne, hhne])]
    rcases hpw : pyIntOfString w with _ | wi <;>
      rcases hph : pyIntOfString h with _ | hi <;>
      first
        | rfl
        | (exfalso; rcases hor with h1 | h1 <;> simp_all)

/-- Witness for the amended claim C8 at concrete stores. -/
theorem frame_size_amended_w :
    frame_size [("codec_type", "video"), ("width", "1920"), ("height", "1080")]
      = .ok (some (1920, 1080)) ∧
    frame_size [("codec_type", "audio")] = .ok none := by
  constructor
  · exact frame_size_amended.2.2.2.2.2.1
      [("codec_type", "video"), ("width", "1920"), ("height", "1080")]
      "1920" "1080" 1920 1080 (by decide) (by decide) (by decide) (by decide)
      (by decide) (by decide) (by decide)
  · exact frame_size_amended.1 [("codec_type", "audio")] (by decide)

/-! ### Claim C6 -/

theorem dictGet_cons (st : Store) (p : String × String) (k : String) :
    dictGet (p :: st) k = if p.1 = k then .ok p.2 else dictGet st k := by
  by_cases h : p.1 = k
  · simp [dictGet, List.find?, h]
  · have hb : (p.1 == k) = false := by simp [h]
    simp [dictGet, List.find?, hb, h]

theorem splitEq_no_eq (l : List Char) (h : '=' ∉ l) : splitEq l = [l] := by
  induction l with
  | nil => rfl
  | cons c r ih =>
    have hc : c ≠ '=' := fun hc => h (hc ▸ List.mem_cons_self c r)
    have hr : '=' ∉ r := fun hm => h (List.mem_cons_of_mem c hm)
    simp only [splitEq, if_neg hc, ih hr]

theorem splitEq_append (kc vc : List Char) (hk : '=' ∉ kc) (hv : '=' ∉ vc) :
    splitEq (kc ++ '=' :: vc) = [kc, vc] := by
  induction kc with
  | nil =>
    rw [List.nil_append]
    simp [splitEq, splitEq_no_eq vc hv]
  | cons c kc ih =>
    have hc : c ≠ '=' := fun hc => hk (hc ▸ List.mem_cons_self c kc)
    have hk2 : '=' ∉ kc := fun hm => hk (List.mem_cons_of_mem c hm)
    rw [List.cons_append]
    simp only [splitEq, if_neg hc]
    rw [ih hk2]

theorem mkStoreAux_get (dl : List String) : ∀ (st0 st : Store) (k : String),
    mkStoreAux st0 dl = .ok st →
    dictGet st k = (match lastKV dl k with
      | some v => .ok v
      | none => dictGet st0 k) := by
  induction dl with
  | nil =>
    intro st0 st k h
    simp only [mkStoreAux] at h
    cases h
    rfl
  | cons a dl ih =>
    intro st0 st k h
    simp only [mkStoreAux] at h
    cases hp : parseKV a with
    | error e => rw [hp] at h; simp at h
    | ok kv =>
      rw [hp] at h
      have hrec := ih (dictInsert st0 kv.1 kv.2) st k h
      simp only [lastKV, hp]
      cases hl : lastKV dl k with
      | some v => rw [hl] at hrec; exact hrec
      | none =>
        rw [hl] at hrec
        by_cases hk : kv.1 = k
        · simp only [if_pos hk]
          rw [hrec]
          simp [dictInsert, dictGet_cons, hk]
        · simp only [if_neg hk]
          rw [hrec]
          simp [dictInsert, dictGet_cons, hk]

/-- Claim C6 as frozen is false on the code: the constructor strips the
whole line and then splits, so whitespace around the equals sign itself
is kept in the key and in the value (the key of the line k-space-equals-
space-v is the two characters k and space, and looking up the bare key
k raises `KeyError`); and a line with two equals signs does not split at
the first one but makes the unpacking raise `ValueError`. -/
theorem store_kv_cex :
    mkStore ["k = v"] = .ok [("k ", " v")] ∧
    dictGet [("k ", " v")] "k" = .error (.keyError "k") ∧
    mkStore ["a=b=c"] = .error .valueError := by
  refine ⟨by decide, by decide, by decide⟩

/-- Claim C6, amended.  For a block whose stripped lines each contain
exactly one equals sign: each line is stripped of surrounding
whitespace as a whole and split at its equals sign (whitespace adjacent
to the sign is kept in the key and the value); a later occurrence of a
key overwrites an earlier one, and lookup afterwards returns exactly the
string value last written for that key, never numerically interpreted
(`KeyError` for a key never written); a line whose stripped form does
not split into exactly two pieces makes construction raise
`ValueError` (shown with such a line at the head of the block). -/
theorem store_kv_amended :
    (∀ (a : String) (kc vc : List Char), pyStripChars a.toList = kc ++ '=' :: vc →
      '=' ∉ kc → '=' ∉ vc → parseKV a = .ok (String.mk kc, String.mk vc)) ∧
    (∀ (dl : List String) (st : Store) (k : String), mkStore dl = .ok st →
      dictGet st k = (match lastKV dl k with
        | some v => .ok v
        | none => .error (.keyError k))) ∧
    (∀ (a : String) (dl : List String),
      (splitEq (pyStripChars a.toList)).length ≠ 2 →
      mkStore (a :: dl) = .error .valueError) := by
  refine ⟨?_, ?_, ?_⟩
  · intro a kc vc hsplit hk hv
    unfold parseKV
    rw [hsplit, splitEq_append kc vc hk hv]
  · intro dl st k h
    exact mkStoreAux_get dl [] st k h
  · intro a dl hlen
    have hp : parseKV a = .error .valueError := by
      unfold parseKV
      rcases hs : splitEq (pyStripChars a.toList) with _ | ⟨x, _ | ⟨y, _ | ⟨z, t⟩⟩⟩
      · rfl
      · rfl
      · exact absurd (by rw [hs]; rfl) hlen
      · rfl
    simp only [mkStore, mkStoreAux, hp]

/-- Witness for the amended claim C6 at a concrete two-line block with a
repeated key. -/
theorem store_kv_amended_w :
    mkStore ["a=1", "a=2"] = .ok [("a", "2"), ("a", "1")] ∧
    dictGet [("a", "2"), ("a", "1")] "a" = .ok "2" := by
  refine ⟨by decide, ?_⟩
  have h := store_kv_amended.2.1 ["a=1", "a=2"] [("a", "2"), ("a", "1")] "a" (by decide)
  rw [(by decide : lastKV ["a=1", "a=2"] "a" = some "2")] at h
  exact h

/-! ### The resolver claims C7, C10, C2, C3 -/

theorem frames_guard (st : Store) (bv ba : Bool) (hv : is_video st = .ok bv)
    (ha : is_audio st = .ok ba) (hav : (bv || ba) = true) :
    frames st = catchValueError (framesTry st) "None integer frame count" := by
  unfold frames
  rw [hv, ok_bind]
  cases bv with
  | true => rfl
  | false =>
    have hba : ba = true := by simpa using hav
    subst hba
    show (if (false = true) then pure true else is_audio st) >>= _ = _
    rw [if_neg (by decide), ha, ok_bind]
    rfl

theorem duration_guard (st : Store) (bv ba : Bool) (hv : is_video st = .ok bv)
    (ha : is_audio st = .ok ba) (hav : (bv || ba) = true) :
    duration_seconds st = catchValueError (durationTry st) "None numeric duration" := by
  unfold duration_seconds
  rw [hv, ok_bind]
  cases bv with
  | true => rfl
  | false =>
    have hba : ba = true := by simpa using hav
    subst hba
    show (if (false = true) then pure true else is_audio st) >>= _ = _
    rw [if_neg (by decide), ha, ok_bind]
    rfl

/-- Claim C7: on an audio or video stream with `nb_frames` present and
different from the N/A sentinel, `frames` parses it as an integer and
returns it, whatever the other fields hold; if it does not parse as an
integer, `frames` fails with the typed `FFProbeError` (the
`MalformedFrameCount` of the spec). -/
theorem frames_nb_spec (st : Store) (bv ba : Bool) (hv : is_video st = .ok bv)
    (ha : is_audio st = .ok ba) (hav : (bv || ba) = true)
    (nb : String) (hnb : dictGet st "nb_frames" = .ok nb) (hna : nb ≠ "N/A") :
    (∀ n : ℤ, pyIntOfString nb = some n → frames st = .ok (.int n)) ∧
    (pyIntOfString nb = none →
      frames st = .error (.ffprobeError "None integer frame count")) := by
  have hg := frames_guard st bv ba hv ha hav
  constructor
  · intro n hn
    rw [hg]
    unfold framesTry
    rw [hnb, ok_bind, if_pos (by simp [hna]), hn]
    rfl
  · intro hn
    rw [hg]
    unfold framesTry
    rw [hnb, ok_bind, if_pos (by simp [hna]), hn]
    rfl

/-- Witness for claim C7 at a concrete store. -/
theorem frames_nb_spec_w :
    frames [("codec_type", "audio"), ("nb_frames", "120")] = .ok (.int 120) := by
  exact (frames_nb_spec [("codec_type", "audio"), ("nb_frames", "120")] false true
    (by decide) (by decide) (by decide) "120" (by decide) (by decide)).1 120 (by decide)

/-- Claim C10: on an audio or video stream with `nb_frames` equal to the
N/A sentinel and a present, non-empty `TAG:DURATION` that does not match
the timestamp pattern, `frames` silently returns the initial count 0
instead of raising. -/
theorem frames_nomatch_spec (st : Store) (bv ba : Bool) (hv : is_video st = .ok bv)
    (ha : is_audio st = .ok ba) (hav : (bv || ba) = true)
    (hnb : dictGet st "nb_frames" = .ok "N/A")
    (td : String) (htd : dictGet st "TAG:DURATION" = .ok td) (hne : td ≠ "")
    (hm : tsMatch td = none) : frames st = .ok (.int 0) := by
  rw [frames_guard st bv ba hv ha hav]
  unfold framesTry
  rw [hnb, ok_bind, if_neg (by decide), htd, ok_bind, if_pos (by simp [hne]), hm]
  rfl

/-- Witness for claim C10 at a concrete store. -/
theorem frames_nomatch_spec_w :
    frames [("codec_type", "video"), ("nb_frames", "N/A"), ("TAG:DURATION", "bogus")]
      = .ok (.int 0) := by
  exact frames_nomatch_spec
    [("codec_type", "video"), ("nb_frames", "N/A"), ("TAG:DURATION", "bogus")]
    true false (by decide) (by decide) (by decide) (by decide) "bogus" (by decide)
    (by decide) (by decide)

/-- Claim C2 as frozen is false on the code: the frame count computed
from `TAG:DURATION` is the whole seconds multiplied by the frame rate
as a Python float, with no truncation to an integer; with one second of
duration and the rate 30000/1001 (29.97 after rounding) the result is
the float 29.97, whose value is not an integer (its reduced denominator
is 100). -/
theorem frames_tag_cex :
    frames [("codec_type", "video"), ("nb_frames", "N/A"), ("TAG:DURATION", "00:00:01.0"),
      ("r_frame_rate", "30000/1001")] = .ok (.float (.finite (2997 / 100))) ∧
    ((2997 : ℚ) / 100).den ≠ 1 := by
  refine ⟨by decide, by decide⟩

/-- Claim C2, amended.  On an audio or video stream with `nb_frames`
equal to the N/A sentinel and a `TAG:DURATION` matching the timestamp
pattern, `frames` returns the float obtained by multiplying the whole
seconds (hours times 3600 plus minutes times 60 plus seconds) by the
fixed frame rate; the sub-second fractional digits contribute nothing.
The result is a float and is an integer value only when the product is
one (as with rate 25, where the spec example 5750 comes out). -/
theorem frames_tag_amended (st : Store) (bv ba : Bool) (hv : is_video st = .ok bv)
    (ha : is_audio st = .ok ba) (hav : (bv || ba) = true)
    (hnb : dictGet st "nb_frames" = .ok "N/A")
    (td : String) (htd : dictGet st "TAG:DURATION" = .ok td) (hne : td ≠ "")
    (h m s : ℕ) (hm : tsMatch td = some (h, m, s))
    (fps : PyFloat) (hf : get_r_frame_rate st = .ok fps) :
    frames st
      = .ok (.float (intMulFloat ((h : ℤ) * 3600 + (m : ℤ) * 60 + (s : ℤ)) fps)) := by
  rw [frames_guard st bv ba hv ha hav]
  unfold framesTry
  rw [hnb, ok_bind, if_neg (by decide), htd, ok_bind, if_pos (by simp [hne])]
  simp only [hm]
  rw [hf]
  simp only [ok_bind]
  rfl

/-- Witness for the amended claim C2: the spec example, 230 whole
seconds at rate 25/1, giving the float 5750.0. -/
theorem frames_tag_amended_w :
    frames [("codec_type", "video"), ("nb_frames", "N/A"),
      ("TAG:DURATION", "00:03:50.070000000"), ("r_frame_rate", "25/1")]
      = .ok (.float (.finite 5750)) := by
  have h := frames_tag_amended
    [("codec_type", "video"), ("nb_frames", "N/A"),
      ("TAG:DURATION", "00:03:50.070000000"), ("r_frame_rate", "25/1")]
    true false (by decide) (by decide) (by decide) (by decide)
    "00:03:50.070000000" (by decide) (by decide) 0 3 50 (by decide)
    (.finite 25) (by decide)
  exact h.trans (by decide)

/-- Claim C3: on an audio or video stream whose `duration` field is
present and equal to the N/A sentinel, `duration_seconds` returns the
frame count divided by the average frame rate, raises
`ZeroDivisionError` when that rate is the float zero, and, when the
`duration` field is present, not the sentinel, and non-numeric, fails
with the typed `FFProbeError` (the `MalformedDuration` of the spec). -/
theorem duration_seconds_spec (st : Store) (bv ba : Bool) (hv : is_video st = .ok bv)
    (ha : is_audio st = .ok ba) (hav : (bv || ba) = true) :
    (∀ (f : PyFloat) (n : PyNum) (d : PyFloat), dictGet st "duration" = .ok "N/A" →
      get_avg_frame_rate st = .ok f → frames st = .ok n → numDivFloat n f = .ok d →
      duration_seconds st = .ok d) ∧
    (∀ n : PyNum, dictGet st "duration" = .ok "N/A" →
      get_avg_frame_rate st = .ok (.finite 0) → frames st = .ok n →
      duration_seconds st = .error .zeroDivisionError) ∧
    (∀ dur : String, dictGet st "duration" = .ok dur → dur ≠ "N/A" →
      pyFloatOfString dur = none →
      duration_seconds st = .error (.ffprobeError "None numeric duration")) := by
  have hg := duration_guard st bv ba hv ha hav
  refine ⟨?_, ?_, ?_⟩
  · intro f n d hdur hf hn hd
    rw [hg]
    unfold durationTry
    rw [hdur, ok_bind, if_neg (by decide), hf]
    simp only [ok_bind]
    rw [hn]
    simp only [ok_bind]
    rw [hd]
    rfl
  · intro n hdur hf hn
    rw [hg]
    unfold durationTry
    rw [hdur, ok_bind, if_neg (by decide), hf]
    simp only [ok_bind]
    rw [hn]
    simp only [ok_bind]
    cases n <;> rfl
  · intro dur hdur hne hpf
    rw [hg]
    unfold durationTry
    rw [hdur, ok_bind, if_pos (by simp [hne]), hpf]
    rfl

/-- Witness for claim C3: the spec example, frame count 5750 at average
rate 25/1, giving 230.0; and a zero average rate raising
`ZeroDivisionError`. -/
theorem duration_seconds_spec_w :
    duration_seconds [("codec_type", "video"), ("duration", "N/A"),
      ("nb_frames", "5750"), ("avg_frame_rate", "25/1")] = .ok (.finite 230) ∧
    duration_seconds [("codec_type", "audio"), ("duration", "N/A"),
      ("nb_frames", "10"), ("avg_frame_rate", "0/5")]
      = .error .zeroDivisionError := by
  constructor
  · exact (duration_seconds_spec [("codec_type", "video"), ("duration", "N/A"),
      ("nb_frames", "5750"), ("avg_frame_rate", "25/1")] true false
      (by decide) (by decide) (by decide)).1 (.finite 25) (.int 5750) (.finite 230)
      (by decide) (by decide) (by decide) (by decide)
  · exact (duration_seconds_spec [("codec_type", "audio"), ("duration", "N/A"),
      ("nb_frames", "10"), ("avg_frame_rate", "0/5")] false true
      (by decide) (by decide) (by decide)).2.1 (.int 10)
      (by decide) (by decide) (by decide)

/-! ### Claim C5 -/

theorem plain_not_start (s : String) (h : plainLine s = true) : lineIsStart s = false := by
  unfold plainLine at h
  rcases Bool.and_eq_true_iff.mp h with ⟨h1, _⟩
  simpa using h1

theorem plain_not_end (s : String) (h : plainLine s = true) : lineIsEnd s = false := by
  unfold plainLine at h
  rcases Bool.and_eq_true_iff.mp h with ⟨_, h2⟩
  simpa using h2

theorem end_not_start (s : String) (h : lineIsEnd s = true) : lineIsStart s = false := by
  unfold lineIsEnd at h
  unfold lineIsStart
  rw [(rfl : "[/STREAM]".toList = '[' :: '/' :: "STREAM]".toList)] at h
  rw [(rfl : "[STREAM]".toList = '[' :: 'S' :: "TREAM]".toList)]
  rcases hl : s.toList with _ | ⟨c1, _ | ⟨c2, l2⟩⟩
  · rw [hl] at h
    simp [isPre] at h
  · rw [hl] at h
    simp [isPre] at h
  · rw [hl] at h
    simp only [isPre, Bool.and_eq_true, decide_eq_true_eq] at h
    obtain ⟨h1, h2, h3⟩ := h
    subst h2
    have hne : ('S' : Char) ≠ '/' := by decide
    simp [isPre, hne]

theorem segLoop_cons_start (a : String) (rest acc : List String)
    (h : lineIsStart a = true) : segLoop (a :: rest) acc = segLoop rest [] := by
  simp only [segLoop, h]
  rfl

theorem segLoop_cons_end (a : String) (rest acc : List String)
    (hs : lineIsStart a = false) (he : lineIsEnd a = true) :
    segLoop (a :: rest) acc = acc :: segLoop rest [] := by
  simp only [segLoop, hs, he]
  rfl

theorem segLoop_cons_plain (a : String) (rest acc : List String)
    (hp : plainLine a = true) :
    segLoop (a :: rest) acc = segLoop rest (acc ++ [a]) := by
  simp only [segLoop, plain_not_start a hp, plain_not_end a hp]
  rfl

theorem segLoop_plain_prefix (dl : List String) (hdl : ∀ l ∈ dl, plainLine l = true) :
    ∀ (acc ls : List String), segLoop (dl ++ ls) acc = segLoop ls (acc ++ dl) := by
  induction dl with
  | nil => intro acc ls; simp
  | cons a dl ih =>
    intro acc ls
    have ha : plainLine a = true := hdl a (List.mem_cons_self a dl)
    rw [List.cons_append, segLoop_cons_plain a _ acc ha,
      ih (fun l hl => hdl l (List.mem_cons_of_mem a hl)) (acc ++ [a]) ls]
    simp

theorem seg_correct {lines : List String} {bs : List (List String)} (h : Seg lines bs) :
    ∀ acc : List String, segLoop lines acc = bs := by
  induction h with
  | nil => intro acc; rfl
  | trailing hd dl hs hdl =>
    intro acc
    rw [segLoop_cons_start hd dl acc hs]
    have := segLoop_plain_prefix dl hdl [] []
    simpa using this
  | junk s rest bs hp hseg ih =>
    intro acc
    rw [segLoop_cons_plain s rest acc hp]
    exact ih (acc ++ [s])
  | drop hd dl nxt rest bs hs hdl hn hseg ih =>
    intro acc
    rw [segLoop_cons_start hd _ acc hs, segLoop_plain_prefix dl hdl [] (nxt :: rest)]
    exact ih ([] ++ dl)
  | block hd dl fin rest bs hs hdl he hseg ih =>
    intro acc
    rw [segLoop_cons_start hd _ acc hs, segLoop_plain_prefix dl hdl [] (fin :: rest),
      segLoop_cons_end fin rest ([] ++ dl) (end_not_start fin he) he, ih []]
    simp

theorem mapStores_all_ok (bs : List (List String))
    (h : ∀ b ∈ bs, isOkB (mkStore b) = true) :
    ∃ sts, mapStores bs = .ok sts ∧ sts.length = bs.length := by
  induction bs with
  | nil => exact ⟨[], rfl, rfl⟩
  | cons b r ih =>
    obtain ⟨sts, hsts, hlen⟩ := ih (fun b2 hb => h b2 (List.mem_cons_of_mem b hb))
    have hb := h b (List.mem_cons_self b r)
    cases hmk : mkStore b with
    | error e => rw [hmk] at hb; simp [isOkB] at hb
    | ok s =>
      refine ⟨s :: sts, ?_, by simp [hlen]⟩
      simp only [mapStores]
      rw [hmk, ok_bind, hsts]
      rfl

/-- Claim C5 as frozen is false on the code: an end-marker line with no
preceding start marker still emits a field store, so on the two-line
input below the code produces one store although the input contains no
start marker at all, hence no complete start/end pair. -/
theorem segmenter_cex :
    ffprobeInit ["x=y", "[/STREAM]"] = .ok [[("x", "y")]] ∧
    lineIsStart "x=y" = false ∧ lineIsStart "[/STREAM]" = false := by
  refine ⟨by decide, by decide, by decide⟩

/-- Claim C5, amended.  For every input line sequence of the
well-formed shape `Seg lines bs` (plain junk outside blocks, every
end marker closing a started block, blocks re-opened by a start marker
discarded, an unterminated trailing block dropped), the segmenter
produces exactly the data-line blocks `bs` of the complete
start-to-end pairs, in order of appearance across the concatenated
channels, and — when every such block constructs — exactly one field
store per complete pair. -/
theorem segmenter_amended (lines : List String) (bs : List (List String))
    (h : Seg lines bs) :
    segmentLines lines = bs ∧
    ffprobeInit lines = mapStores bs ∧
    ((∀ b ∈ bs, isOkB (mkStore b) = true) →
      ∃ sts, ffprobeInit lines = .ok sts ∧ sts.length = bs.length) := by
  have h1 : segmentLines lines = bs := seg_correct h []
  refine ⟨h1, ?_, ?_⟩
  · unfold ffprobeInit
    rw [h1]
  · intro hall
    obtain ⟨sts, h2, h3⟩ := mapStores_all_ok bs hall
    refine ⟨sts, ?_, h3⟩
    unfold ffprobeInit
    rw [h1]
    exact h2

/-- Witness for the amended claim C5 on `demoLines`: a junk line, two
complete blocks, a block left open at the end of the input. -/
theorem segmenter_amended_w :
    segmentLines demoLines = demoBlocks ∧
    ∃ sts, ffprobeInit demoLines = .ok sts ∧ sts.length = demoBlocks.length := by
  have hseg : Seg demoLines demoBlocks := by
    show Seg ("junk\n" :: "[STREAM]\n" :: (["codec_type=video\n"] ++ "[/STREAM]\n" ::
      ("[STREAM]\n" :: (["codec_type=audio\n"] ++ "[/STREAM]\n" ::
        ("[STREAM]\n" :: ["left=open\n"])))))
      [["codec_type=video\n"], ["codec_type=audio\n"]]
    refine Seg.junk _ _ _ (by decide) ?_
    refine Seg.block _ _ _ _ _ (by decide) (by decide) (by decide) ?_
    refine Seg.block _ _ _ _ _ (by decide) (by decide) (by decide) ?_
    exact Seg.trailing _ _ (by decide) (by decide)
  have h := segmenter_amended demoLines demoBlocks hseg
  exact ⟨h.1, h.2.2 (by decide)⟩

/-! ### Claim C9 -/

theorem partitionAV_spec (ss : List Store) : ∀ (aud vid : List Store),
    partitionAV ss = .ok (aud, vid) →
    List.Sublist aud ss ∧ List.Sublist vid ss ∧
    (∀ s ∈ aud, is_audio s = .ok true) ∧ (∀ s ∈ vid, is_video s = .ok true) := by
  induction ss with
  | nil =>
    intro aud vid h
    simp only [partitionAV] at h
    cases h
    exact ⟨List.Sublist.refl [], List.Sublist.refl [], by simp, by simp⟩
  | cons s rest ih =>
    intro aud vid h
    simp only [partitionAV] at h
    cases hia : is_audio s with
    | error e => rw [hia, error_bind] at h; simp at h
    | ok ia =>
      rw [hia] at h
      simp only [ok_bind] at h
      cases hiv : is_video s with
      | error e => rw [hiv, error_bind] at h; simp at h
      | ok iv =>
        rw [hiv] at h
        simp only [ok_bind] at h
        cases hav : partitionAV rest with
        | error e => rw [hav, error_bind] at h; simp at h
        | ok av =>
          rw [hav] at h
          simp only [ok_bind, pure_eq_ok] at h
          have hinj := Except.ok.inj h
          have haud : aud = (if ia = true then s :: av.1 else av.1) := by
            have := congrArg Prod.fst hinj
            simpa using this.symm
          have hvid : vid = (if iv = true then s :: av.2 else av.2) := by
            have := congrArg Prod.snd hinj
            simpa using this.symm
          obtain ⟨hsub1, hsub2, hmem1, hmem2⟩ := ih av.1 av.2 (by rw [hav])
          subst haud
          subst hvid
          refine ⟨?_, ?_, ?_, ?_⟩
          · cases ia with
            | false => rw [if_neg (by decide)]; exact hsub1.cons s
            | true => rw [if_pos rfl]; exact hsub1.cons₂ s
          · cases iv with
            | false => rw [if_neg (by decide)]; exact hsub2.cons s
            | true => rw [if_pos rfl]; exact hsub2.cons₂ s
          · cases ia with
            | false => rw [if_neg (by decide)]; exact hmem1
            | true =>
              rw [if_pos rfl]
              intro s2 hs2
              rcases List.mem_cons.mp hs2 with h2 | h2
              · rw [h2]; exact hia
              · exact hmem1 s2 h2
          · cases iv with
            | false => rw [if_neg (by decide)]; exact hmem2
            | true =>
              rw [if_pos rfl]
              intro s2 hs2
              rcases List.mem_cons.mp hs2 with h2 | h2
              · rw [h2]; exact hiv
              · exact hmem2 s2 h2

/-- Claim C9: for every successfully constructed report, the video view
and the audio view are subsequences of the master stream sequence, every
element of the video view satisfies the video classification and every
element of the audio view the audio classification; the three sequences
are fixed once at construction (the embedding builds the report as one
immutable value, partitioned a single time by the classifier). -/
theorem report_views_spec (lines : List String) (r : Report)
    (h : buildReport lines = .ok r) :
    List.Sublist r.video r.streams ∧ List.Sublist r.audio r.streams ∧
    (∀ s ∈ r.video, is_video s = .ok true) ∧
    (∀ s ∈ r.audio, is_audio s = .ok true) := by
  unfold buildReport at h
  cases hin : ffprobeInit lines with
  | error e => rw [hin, error_bind] at h; simp at h
  | ok sts =>
    rw [hin] at h
    simp only [ok_bind] at h
    cases hav : partitionAV sts with
    | error e => rw [hav, error_bind] at h; simp at h
    | ok av =>
      rw [hav] at h
      simp only [ok_bind] at h
      have hr : r = ⟨sts, av.2, av.1⟩ := (Except.ok.inj h).symm
      obtain ⟨hsub1, hsub2, hmem1, hmem2⟩ :=
        partitionAV_spec sts av.1 av.2 (by rw [hav])
      rw [hr]
      exact ⟨hsub2, hsub1, hmem2, hmem1⟩

/-- Witness for claim C9 on the report built from `demoLines`. -/
theorem report_views_spec_w :
    ∃ r : Report, buildReport demoLines = .ok r ∧
      List.Sublist r.video r.streams ∧ List.Sublist r.audio r.streams ∧
      (∀ s ∈ r.video, is_video s = .ok true) ∧
      (∀ s ∈ r.audio, is_audio s = .ok true) := by
  refine ⟨⟨[[("codec_type", "video")], [("codec_type", "audio")]],
    [[("codec_type", "video")]], [[("codec_type", "audio")]]⟩, by decide, ?_⟩
  exact report_views_spec demoLines _ (by decide)

end FFProbes3
